import Mathlib

/-!
Shallow embedding of `utils.go` from the `dt` DNS-auditing tool, together with
proofs of the specified properties of its functions.

Conventions of the embedding:
* Go byte slices holding IP addresses (`net.IP`) become `List Nat` with byte
  values `< 256` where it matters.
* The wire transport (`dns.Client.Exchange`) is external I/O; it is abstracted
  as a deterministic function (`Network`) of the destination address, the
  question and the DNSSEC flag of the outbound message, returning either a
  transport error or a reply message with a round-trip time.  The random
  message id drawn by `dns.Id()` does not influence anything observable and is
  not modelled.
* Go errors are their message strings (`err.Error()`), `nil` being `none` /
  the `Except.error` branch absent.
-/

set_option maxHeartbeats 1000000
set_option maxRecDepth 8000
set_option linter.unusedVariables false

namespace DT

/-- `dns.TypeA`. -/
def typeA : Nat := 1

/-- `dns.TypeNS`. -/
def typeNS : Nat := 2

/-- `dns.TypeAAAA`. -/
def typeAAAA : Nat := 28

/-- `dns.ClassINET`. -/
def classINET : Nat := 1

/-- `net.IP`: a byte slice, length 4 (IPv4) or 16 (IPv6 or IPv4-in-IPv6). -/
abbrev IPAddr := List Nat

/-- `dns.RR`, the tagged union of resource records, restricted to the shapes
this file reads: `*dns.A` (an IPv4 address), `*dns.AAAA` (an IPv6 address),
`*dns.NS` (a delegation target), and `other t` standing for any record of a
type other than A/NS/AAAA (TXT, MX, ...), of which only the header type code
`t` is ever read. -/
inductive RR where
  | a (hdr : String) (addr : IPAddr)
  | aaaa (hdr : String) (addr : IPAddr)
  | ns (hdr : String) (target : String)
  | other (t : Nat)
deriving DecidableEq, Repr

/-- `rr.Header().Rrtype`: the type code of a record.  For records produced by
parsing a DNS message the code agrees with the concrete Go type, which is what
the constructor-derived value expresses. -/
def RR.rrtype : RR → Nat
  | .a _ _ => typeA
  | .aaaa _ _ => typeAAAA
  | .ns _ _ => typeNS
  | .other t => t

/-- `rr.(*dns.NS).Ns`.  In a parsed message every record whose type code is NS
is a `*dns.NS`, so the fallback arm (in Go a type-assertion panic, unreachable
there) never fires on real answers. -/
def nsName : RR → String
  | .ns _ target => target
  | _ => ""

/-- The question section entry: `dns.Question{name, qtype, qclass}`. -/
structure Question where
  qname : String
  qtype : Nat
  qclass : Nat
deriving DecidableEq, Repr

/-- The part of an inbound `dns.Msg` this file reads: response code and
answer section. -/
structure Msg where
  rcode : Nat
  answer : List RR
deriving DecidableEq, Repr

/-- Outcome of one wire exchange: a transport error (with its message) or a
reply message together with the measured round-trip time. -/
inductive ExchangeResult where
  | err (e : String)
  | reply (m : Msg) (rtt : Nat)
deriving DecidableEq, Repr

/-- Abstraction of `c.Exchange(m, addr)`: a deterministic function of the
destination address, the question of the outbound message, and whether the
DNSSEC option (EDNS0, checking enabled) was requested. -/
def Network : Type := String → Question → Bool → ExchangeResult

/-- The `Response` struct: the reply message, the server queried, the
round-trip time. -/
structure Response where
  msg : Msg
  server : String
  rtt : Nat
deriving DecidableEq, Repr

/-- `net.JoinHostPort`. -/
def joinHostPort (host port : String) : String :=
  if host.contains ':' then "[" ++ host ++ "]:" ++ port else host ++ ":" ++ port

/-- `dns.IsFqdn`: the name ends in an unescaped dot (the run of backslashes
before a trailing dot has even length). -/
def isFqdn (s : List Char) : Bool :=
  if s.getLast? = some '.' then
    (s.dropLast.reverse.takeWhile (fun c => c = '\\')).length % 2 = 0
  else false

/-- `dns.Fqdn`: append a trailing dot unless the name is already fully
qualified. -/
def fqdn (s : String) : String :=
  if isFqdn s.data then s else s ++ "."

/-- `dns.RcodeToString` for the standard response codes; a code missing from
the Go map yields the empty string, like a Go map lookup miss. -/
def rcodeToString (rc : Nat) : String :=
  if rc = 0 then "NOERROR"
  else if rc = 1 then "FORMERR"
  else if rc = 2 then "SERVFAIL"
  else if rc = 3 then "NXDOMAIN"
  else if rc = 4 then "NOTIMP"
  else if rc = 5 then "REFUSED"
  else if rc = 6 then "YXDOMAIN"
  else if rc = 7 then "YXRRSET"
  else if rc = 8 then "NXRRSET"
  else if rc = 9 then "NOTAUTH"
  else if rc = 10 then "NOTZONE"
  else ""

/-- `query`: build the message (`prepMsg`, checking disabled, recursion
desired, optional EDNS0 when `sec`), set the single question to the fully
qualified name, exchange it with `server` on port 53, and classify the
outcome: transport errors propagate, a non-zero response code becomes the
error `"failure: <rcode name>"`, success wraps the reply. -/
def query (net : Network) (q : String) (qtype : Nat) (server : String) (sec : Bool) :
    Except String Response :=
  match net (joinHostPort server "53") ⟨fqdn q, qtype, classINET⟩ sec with
  | .err e => .error e
  | .reply m rtt =>
    if m.rcode ≠ 0 then .error ("failure: " ++ rcodeToString m.rcode)
    else .ok ⟨m, server, rtt⟩

/-- `extractRR`: keep exactly the records whose header type code is one of the
requested codes (the Go version materialises the codes as a set first; set
membership and list membership coincide). -/
def extractRR (rrset : List RR) (qtypes : List Nat) : List RR :=
  rrset.filter (fun rr => qtypes.contains rr.rrtype)

/-- `extractRRMsg`. -/
def extractRRMsg (msg : Option Msg) (qtypes : List Nat) : List RR :=
  match msg with
  | some m => extractRR m.answer qtypes
  | none => []

/-- `extractIP`: the addresses of the `*dns.A` and `*dns.AAAA` records, in
encounter order; records of any other concrete type are skipped. -/
def extractIP : List RR → List IPAddr
  | [] => []
  | .a _ addr :: rest => addr :: extractIP rest
  | .aaaa _ addr :: rest => addr :: extractIP rest
  | _ :: rest => extractIP rest

/-- The error message `fmt.Errorf("no rr for %#v", qtype)` builds: `%#v` of a
`uint16` prints the value as a Go hexadecimal literal. -/
def noRRMsg (qtype : Nat) : String :=
  "no rr for 0x" ++ String.mk (Nat.toDigits 16 qtype)

/-- `queryRRset`: run `query`, filter the answer down to the requested type,
and treat an empty filtered set as the error `noRRMsg`; on success return the
non-empty record list and the round-trip time. -/
def queryRRset (net : Network) (q : String) (qtype : Nat) (server : String) (sec : Bool) :
    Except String (List RR × Nat) :=
  match query net q qtype server sec with
  | .error e => .error e
  | .ok res =>
    let rrset := extractRR res.msg.answer [qtype]
    if rrset.length = 0 then .error (noRRMsg qtype)
    else .ok (rrset, res.rtt)

/-- `getIP`: best-effort address lookup — any `queryRRset` error is absorbed
into an empty list. -/
def getIP (net : Network) (host : String) (qtype : Nat) (server : String) : List IPAddr :=
  match queryRRset net host qtype server false with
  | .error _ => []
  | .ok (rrset, _) => extractIP rrset

/-- The `IPInfo` struct (declared elsewhere in the repository; modelled from
its use in this file and the spec's NameserverInfo ownership metadata):
address plus country/ASN/organisation enrichment, zero-valued unless the
external lookup filled it in. -/
structure IPInfo where
  ip : IPAddr := []
  country : String := ""
  asn : Nat := 0
  orgname : String := ""
deriving DecidableEq, Repr

/-- The `NSInfo` struct (declared elsewhere in the repository; modelled from
its use in this file): embedded `IPInfo` plus the nameserver name. -/
structure NSInfo where
  info : IPInfo
  name : String
deriving DecidableEq, Repr

/-- The `NSData` struct (declared elsewhere in the repository; modelled from
its use in this file): one discovery unit per nameserver — name, address
list, per-address info entries. -/
structure NSData where
  name : String
  ip : List IPAddr
  nsinfo : List NSInfo
deriving DecidableEq, Repr

/-- The body of `findNS`'s per-record loop: take the NS target name, gather
its A addresses then its AAAA addresses (both best-effort), and assemble the
`NSData` entry with one `NSInfo` per address. -/
def nsDataFor (net : Network) (resolver : String) (rr : RR) : NSData :=
  let ns := nsName rr
  let ips := getIP net ns typeA resolver ++ getIP net ns typeAAAA resolver
  { name := ns
    ip := ips
    nsinfo := ips.map (fun ip => { info := { ip := ip }, name := ns }) }

/-- `findNS`: resolve the NS RRset of `domain` (errors propagate), build one
`NSData` per NS record in answer order, and guard the (dead, see the proofs
below) empty-list case with the error `"no NS found"`.  The package-level
configuration variable `resolver` is threaded as an explicit parameter. -/
def findNS (net : Network) (resolver : String) (domain : String) :
    Except String (List NSData) :=
  match queryRRset net domain typeNS resolver false with
  | .error e => .error e
  | .ok (rrset, _) =>
    let nsdatas := rrset.map (nsDataFor net resolver)
    if nsdatas.length = 0 then .error "no NS found" else .ok nsdatas

/-! ### `net` package primitives used by the topology checks -/

/-- The 12-byte prefix of an IPv4-in-IPv6 address (`v4InV6Prefix`). -/
def v4InV6Prefix : List Nat := [0, 0, 0, 0, 0, 0, 0, 0, 0, 0, 255, 255]

/-- `net.IP.To4`: the 4-byte form of an IPv4 address, `none` for anything
else. -/
def to4 (ip : IPAddr) : Option IPAddr :=
  if ip.length = 4 then some ip
  else if ip.length = 16 ∧ ip.take 12 = v4InV6Prefix then some (ip.drop 12)
  else none

/-- The byte list built by `net.CIDRMask`: `ones` leading one-bits over
`bits/8` bytes. -/
def maskBytes : Nat → Nat → List Nat
  | 0, _ => []
  | l + 1, n =>
    if n ≥ 8 then 255 :: maskBytes l (n - 8)
    else (255 - (255 >>> n)) :: maskBytes l 0

/-- `net.CIDRMask`; invalid shapes yield the empty mask (Go: `nil`). -/
def cidrMask (ones bits : Nat) : List Nat :=
  if ones ≤ bits ∧ bits % 8 = 0 then maskBytes (bits / 8) ones else []

/-- The 16-byte value `net.ParseIP` returns for a dotted-quad literal. -/
def parseIPv4 (a b c d : Nat) : IPAddr := v4InV6Prefix ++ [a, b, c, d]

/-- `net.IPNet`. -/
structure IPNet where
  ip : IPAddr
  mask : List Nat
deriving DecidableEq, Repr

/-- `networkNumberAndMask`: normalise the network address to 4-byte form when
it is IPv4, and cut a 16-byte mask down to its last 4 bytes for a 4-byte
network; incompatible shapes yield the empty pair (Go: `nil, nil`). -/
def networkNumberAndMask (n : IPNet) : List Nat × List Nat :=
  let ip? : Option IPAddr :=
    match to4 n.ip with
    | some x => some x
    | none => if n.ip.length = 16 then some n.ip else none
  match ip? with
  | none => ([], [])
  | some ip =>
    if n.mask.length = 4 then
      if ip.length = 4 then (ip, n.mask) else ([], [])
    else if n.mask.length = 16 then
      if ip.length = 4 then (ip, n.mask.drop 12) else (ip, n.mask)
    else ([], [])

/-- `(*net.IPNet).Contains`: normalise the candidate to 4-byte form when
possible, require it to be as long as the mask, and compare the network
number with the candidate under the mask byte by byte. -/
def IPNet.contains (n : IPNet) (ip : IPAddr) : Bool :=
  let nm := networkNumberAndMask n
  let x := match to4 ip with
    | some x => x
    | none => ip
  if nm.2.length ≠ x.length then false
  else ((nm.1.zip nm.2).zip x).all (fun p => p.1.1 &&& p.1.2 == p.1.2 &&& p.2)

/-- `isRFC1918`: membership in 10.0.0.0/8, 192.168.0.0/16 or 172.16.0.0/12. -/
def isRFC1918 (ip : IPAddr) : Bool :=
  let ten : IPNet := ⟨parseIPv4 10 0 0 0, cidrMask 8 32⟩
  let oneNineTwo : IPNet := ⟨parseIPv4 192 168 0 0, cidrMask 16 32⟩
  let oneSevenTwo : IPNet := ⟨parseIPv4 172 16 0 0, cidrMask 12 32⟩
  ten.contains ip || oneNineTwo.contains ip || oneSevenTwo.contains ip

/-- `isSameSubnet`: one /24 net per IPv4 input, then count, over every derived
net, how many inputs it contains; true exactly when the count reaches
(number of IPv4 inputs) × (number of nets). -/
def isSameSubnet (ips : List IPAddr) : Bool :=
  let v4s := ips.filter (fun ip => (to4 ip).isSome)
  let ipnets := v4s.map (fun ip => IPNet.mk ip (cidrMask 24 32))
  let count := (ipnets.map (fun n => ips.countP (fun ip => n.contains ip))).sum
  count == v4s.length * ipnets.length

/-! ### Parent domain -/

/-- The length of the run of backslashes immediately before index `i` of `s`
(what the inner `j` loop of `dns.NextLabel` measures). -/
def bsRun (s : List Char) (i : Nat) : Nat :=
  ((s.take i).reverse.takeWhile (fun c => c = '\\')).length

/-- Index `i` of `s` is an unescaped dot: a label boundary for
`dns.NextLabel`. -/
def boundaryAt (s : List Char) (i : Nat) : Bool :=
  s.get? i = some '.' && bsRun s i % 2 = 0

/-- The scanning loop of `dns.NextLabel`: walk `i` upward while `i` is not the
last index, stopping one past the first unescaped dot with `end = false`, or
one past the final index with `end = true`.  The structural `fuel` argument
only drives termination; `s.length` steps always suffice. -/
def nextLabelGo (s : List Char) : Nat → Nat → Nat × Bool
  | 0, i => (i + 1, true)
  | fuel + 1, i =>
    if i + 1 < s.length then
      if boundaryAt s i then (i + 1, false)
      else nextLabelGo s fuel (i + 1)
    else (i + 1, true)

/-- `dns.NextLabel`. -/
def nextLabel (s : List Char) (offset : Nat) : Nat × Bool :=
  if s = [] then (0, true) else nextLabelGo s s.length offset

/-- `getParentDomain`: strip the leftmost label when `dns.NextLabel` finds a
boundary, else return the root. -/
def getParentDomain (domain : String) : String :=
  let r := nextLabel domain.data 0
  if r.2 = false then String.mk (domain.data.drop r.1) else "."

/-! ### Scan error classification -/

/-- The `ReportResult` struct (declared elsewhere in the repository); only its
finding line is built here. -/
structure ReportResult where
  result : String
deriving DecidableEq, Repr

/-- The `Report` struct (declared elsewhere in the repository): the
append-only list of findings. -/
structure Report where
  result : List ReportResult
deriving DecidableEq, Repr

/-- Whether `sub` occurs inside `l` (`strings.Contains`). -/
def containsSub (l sub : List Char) : Bool :=
  (List.range (l.length + 1)).any (fun i => sub.isPrefixOf (l.drop i))

/-- `strings.Contains`. -/
def strContains (s sub : String) : Bool :=
  containsSub s.data sub.data

/-- The finding line `fmt.Sprintf("ERR : %s failed on %s (%s): %s", check,
ns, ip, err)`. -/
def scanLine (check ns ip err : String) : String :=
  "ERR : " ++ check ++ " failed on " ++ ns ++ " (" ++ ip ++ "): " ++ err

/-- `scanerror`: with a non-nil error, append the finding line unless the
message contains `"NXDOMAIN"` or `"no rr for"`, and fail either way; with a
nil error and zero records, fail silently (the finding append is commented
out in the source); otherwise succeed.  The mutated report is returned
alongside the failure flag. -/
def scanerror (r : Report) (check ns ip domain : String) (results : List RR)
    (err : Option String) : Report × Bool :=
  match err with
  | some e =>
    let r' :=
      if ¬ strContains e "NXDOMAIN" ∧ ¬ strContains e "no rr for" then
        { r with result := r.result ++ [⟨scanLine check ns ip e⟩] }
      else r
    (r', true)
  | none =>
    if results.length = 0 then (r, true) else (r, false)

/-! ## Helper lemmas -/

theorem isPrefixOf_append_self (l t : List Char) : l.isPrefixOf (l ++ t) = true := by
  rw [ List.isPrefixOf_iff_prefix]
  exact List.prefix_append l t

theorem containsSub_middle (s t u : List Char) : containsSub (s ++ (t ++ u)) t = true := by
  unfold containsSub
  rw [List.any_eq_true]
  refine ⟨s.length, ?_, ?_⟩
  · rw [List.mem_range]
    simp [List.length_append]
    omega
  · rw [List.drop_left]
    exact isPrefixOf_append_self t u

theorem strContains_scanLine_check (check ns ip e : String) :
    strContains (scanLine check ns ip e) check = true := by
  unfold strContains scanLine
  simp only [String.data_append, List.append_assoc]
  exact containsSub_middle _ _ _

theorem strContains_scanLine_ns (check ns ip e : String) :
    strContains (scanLine check ns ip e) ns = true := by
  unfold strContains scanLine
  have h := containsSub_middle ("ERR : ".data ++ check.data ++ " failed on ".data) ns.data
    (" (".data ++ ip.data ++ "): ".data ++ e.data)
  simp only [String.data_append, List.append_assoc] at h ⊢
  exact h

theorem strContains_scanLine_ip (check ns ip e : String) :
    strContains (scanLine check ns ip e) ip = true := by
  unfold strContains scanLine
  have h := containsSub_middle
    ("ERR : ".data ++ check.data ++ " failed on ".data ++ ns.data ++ " (".data) ip.data
    ("): ".data ++ e.data)
  simp only [String.data_append, List.append_assoc] at h ⊢
  exact h

/-! ## C9 — nil error, zero records: silent failure -/

/-- C9: with a nil error and zero records, `scanerror` reports failure and
leaves the report's findings list unchanged. -/
theorem scanerror_nil_error_no_records (r : Report) (check ns ip domain : String) :
    scanerror r check ns ip domain [] none = (r, true) := rfl

/-- Witness for C9 at a concrete report. -/
theorem scanerror_nil_error_no_records_witness :
    scanerror ⟨[⟨"old finding"⟩]⟩ "NS" "ns1.example.com." "203.0.113.1" "example.com." [] none
      = (⟨[⟨"old finding"⟩]⟩, true) :=
  scanerror_nil_error_no_records ⟨[⟨"old finding"⟩]⟩ "NS" "ns1.example.com." "203.0.113.1"
    "example.com."

/-! ## C6 — extractRR is a stable filter by type -/

/-- C6: `extractRR` returns a subsequence of its input (order preserved), a
record is kept exactly when it is an input record whose type code is among the
requested ones, and — the function being a plain function of its arguments —
it is pure and leaves the input unchanged. -/
theorem extractRR_stable_filter (rrset : List RR) (qtypes : List Nat) :
    List.Sublist (extractRR rrset qtypes) rrset ∧
    ∀ rr, rr ∈ extractRR rrset qtypes ↔ rr ∈ rrset ∧ rr.rrtype ∈ qtypes := by
  refine ⟨List.filter_sublist _, ?_⟩
  intro rr
  simp [extractRR, List.mem_filter]

/-! ## C2 — scan error classifier on a non-nil error -/

/-- C2 counterexample: on an unexpected error the appended finding line holds
the check name, server and address, but not the domain — here the single
appended line does not contain `"example.com."`. -/
theorem scanerror_line_lacks_domain :
    (scanerror ⟨[]⟩ "NS" "ns1.other.net." "203.0.113.1" "example.com." []
        (some "i/o timeout")).2 = true ∧
    (scanerror ⟨[]⟩ "NS" "ns1.other.net." "203.0.113.1" "example.com." []
        (some "i/o timeout")).1.result
      = [⟨"ERR : NS failed on ns1.other.net. (203.0.113.1): i/o timeout"⟩] ∧
    strContains "ERR : NS failed on ns1.other.net. (203.0.113.1): i/o timeout" "example.com."
      = false := by
  refine ⟨rfl, by decide, by decide⟩

/-- C2 (amended): a benign error (message containing `"NXDOMAIN"` or
`"no rr for"`) yields `isFailure = true` with no finding appended; any other
error yields `isFailure = true` and exactly one appended finding line
containing the check name, the server and the target address. -/
theorem scanerror_error_classification
    (r : Report) (check ns ip domain : String) (results : List RR) (e : String) :
    (strContains e "NXDOMAIN" = true ∨ strContains e "no rr for" = true →
      scanerror r check ns ip domain results (some e) = (r, true)) ∧
    (strContains e "NXDOMAIN" = false → strContains e "no rr for" = false →
      scanerror r check ns ip domain results (some e)
          = ({ result := r.result ++ [⟨scanLine check ns ip e⟩] }, true) ∧
        strContains (scanLine check ns ip e) check = true ∧
        strContains (scanLine check ns ip e) ns = true ∧
        strContains (scanLine check ns ip e) ip = true) := by
  constructor
  · intro h
    have hcond : ¬ (¬ strContains e "NXDOMAIN" = true ∧ ¬ strContains e "no rr for" = true) := by
      rcases h with h | h <;> simp [h]
    simp only [scanerror]
    rw [if_neg hcond]
  · intro h1 h2
    refine ⟨?_, strContains_scanLine_check check ns ip e,
      strContains_scanLine_ns check ns ip e, strContains_scanLine_ip check ns ip e⟩
    simp [scanerror, h1, h2]

/-- Witness for C2's amended theorem at a concrete unexpected error. -/
theorem scanerror_error_classification_witness :
    scanerror ⟨[]⟩ "SOA" "ns1.example.org." "198.51.100.7" "example.org." []
        (some "read timeout")
      = (⟨[⟨scanLine "SOA" "ns1.example.org." "198.51.100.7" "read timeout"⟩]⟩, true) :=
  ((scanerror_error_classification ⟨[]⟩ "SOA" "ns1.example.org." "198.51.100.7"
    "example.org." [] "read timeout").2 (by decide) (by decide)).1

/-! ## Helper lemmas for the query pipeline -/

theorem query_err {net : Network} {q : String} {qtype : Nat} {server : String} {sec : Bool}
    {e : String}
    (hx : net (joinHostPort server "53") ⟨fqdn q, qtype, classINET⟩ sec = .err e) :
    query net q qtype server sec = .error e := by
  unfold query
  rw [hx]

theorem query_reply_ok {net : Network} {q : String} {qtype : Nat} {server : String} {sec : Bool}
    {m : Msg} {rtt : Nat}
    (hx : net (joinHostPort server "53") ⟨fqdn q, qtype, classINET⟩ sec = .reply m rtt)
    (hrc : m.rcode = 0) :
    query net q qtype server sec = .ok ⟨m, server, rtt⟩ := by
  unfold query
  rw [hx]
  simp [hrc]

theorem query_reply_fail {net : Network} {q : String} {qtype : Nat} {server : String} {sec : Bool}
    {m : Msg} {rtt : Nat}
    (hx : net (joinHostPort server "53") ⟨fqdn q, qtype, classINET⟩ sec = .reply m rtt)
    (hrc : m.rcode ≠ 0) :
    query net q qtype server sec = .error ("failure: " ++ rcodeToString m.rcode) := by
  unfold query
  rw [hx]
  simp [hrc]

theorem queryRRset_err {net : Network} {q : String} {qtype : Nat} {server : String} {sec : Bool}
    {e : String}
    (hx : net (joinHostPort server "53") ⟨fqdn q, qtype, classINET⟩ sec = .err e) :
    queryRRset net q qtype server sec = .error e := by
  unfold queryRRset
  rw [query_err hx]

theorem queryRRset_reply_fail {net : Network} {q : String} {qtype : Nat} {server : String}
    {sec : Bool} {m : Msg} {rtt : Nat}
    (hx : net (joinHostPort server "53") ⟨fqdn q, qtype, classINET⟩ sec = .reply m rtt)
    (hrc : m.rcode ≠ 0) :
    queryRRset net q qtype server sec = .error ("failure: " ++ rcodeToString m.rcode) := by
  unfold queryRRset
  rw [query_reply_fail hx hrc]

theorem queryRRset_reply_noRR {net : Network} {q : String} {qtype : Nat} {server : String}
    {sec : Bool} {m : Msg} {rtt : Nat}
    (hx : net (joinHostPort server "53") ⟨fqdn q, qtype, classINET⟩ sec = .reply m rtt)
    (hrc : m.rcode = 0) (hnil : extractRR m.answer [qtype] = []) :
    queryRRset net q qtype server sec = .error (noRRMsg qtype) := by
  unfold queryRRset
  rw [query_reply_ok hx hrc]
  simp [hnil]

theorem queryRRset_reply_ok {net : Network} {q : String} {qtype : Nat} {server : String}
    {sec : Bool} {m : Msg} {rtt : Nat}
    (hx : net (joinHostPort server "53") ⟨fqdn q, qtype, classINET⟩ sec = .reply m rtt)
    (hrc : m.rcode = 0) (hne : extractRR m.answer [qtype] ≠ []) :
    queryRRset net q qtype server sec = .ok (extractRR m.answer [qtype], rtt) := by
  unfold queryRRset
  rw [query_reply_ok hx hrc]
  simp [List.length_eq_zero, hne]

theorem queryRRset_ok_elim {net : Network} {q : String} {qtype : Nat} {server : String}
    {sec : Bool} {rrset : List RR} {rtt : Nat}
    (h : queryRRset net q qtype server sec = .ok (rrset, rtt)) :
    ∃ m, net (joinHostPort server "53") ⟨fqdn q, qtype, classINET⟩ sec = .reply m rtt ∧
      m.rcode = 0 ∧ rrset = extractRR m.answer [qtype] ∧ rrset ≠ [] := by
  cases hx : net (joinHostPort server "53") ⟨fqdn q, qtype, classINET⟩ sec with
  | err e =>
    rw [queryRRset_err hx] at h
    cases h
  | reply m rtt0 =>
    by_cases hrc : m.rcode = 0
    · by_cases hnil : extractRR m.answer [qtype] = []
      · rw [queryRRset_reply_noRR hx hrc hnil] at h
        cases h
      · rw [queryRRset_reply_ok hx hrc hnil] at h
        have hp : (extractRR m.answer [qtype], rtt0) = (rrset, rtt) := Except.ok.inj h
        have h1 : extractRR m.answer [qtype] = rrset := congrArg Prod.fst hp
        have h2 : rtt0 = rtt := congrArg Prod.snd hp
        subst h2
        exact ⟨m, rfl, hrc, h1.symm, h1 ▸ hnil⟩
    · rw [queryRRset_reply_fail hx hrc] at h
      cases h

theorem findNS_eq_map {net : Network} {resolver domain : String} {rrset : List RR} {rtt : Nat}
    (h : queryRRset net domain typeNS resolver false = .ok (rrset, rtt)) :
    findNS net resolver domain = .ok (rrset.map (nsDataFor net resolver)) := by
  obtain ⟨m, hx, hrc, heq, hne⟩ := queryRRset_ok_elim h
  unfold findNS
  rw [h]
  have hlen : ¬ (rrset.map (nsDataFor net resolver)).length = 0 := by
    simp [List.length_eq_zero, hne]
  simp [hlen, hne]

/-! ## C3 — queryRRset never succeeds with an empty record set -/

/-- C3: `queryRRset` returns a non-empty record list on success together with
the measured round-trip time; a well-formed reply whose filtered record set is
empty yields the no-records error, and a non-success response code yields the
server-rejection error. -/
theorem queryRRset_success_spec (net : Network) (q : String) (qtype : Nat) (server : String)
    (sec : Bool) :
    (∀ rrset rtt, queryRRset net q qtype server sec = .ok (rrset, rtt) → rrset ≠ []) ∧
    (∀ m rtt, net (joinHostPort server "53") ⟨fqdn q, qtype, classINET⟩ sec = .reply m rtt →
      m.rcode = 0 → extractRR m.answer [qtype] = [] →
      queryRRset net q qtype server sec = .error (noRRMsg qtype)) ∧
    (∀ m rtt, net (joinHostPort server "53") ⟨fqdn q, qtype, classINET⟩ sec = .reply m rtt →
      m.rcode ≠ 0 →
      queryRRset net q qtype server sec = .error ("failure: " ++ rcodeToString m.rcode)) ∧
    (∀ rrset rtt, queryRRset net q qtype server sec = .ok (rrset, rtt) →
      ∃ m, net (joinHostPort server "53") ⟨fqdn q, qtype, classINET⟩ sec = .reply m rtt ∧
        rrset = extractRR m.answer [qtype]) := by
  refine ⟨?_, ?_, ?_, ?_⟩
  · intro rrset rtt h
    exact (queryRRset_ok_elim h).choose_spec.2.2.2
  · intro m rtt hx hrc hnil
    exact queryRRset_reply_noRR hx hrc hnil
  · intro m rtt hx hrc
    exact queryRRset_reply_fail hx hrc
  · intro rrset rtt h
    obtain ⟨m, hx, hrc, heq, hne⟩ := queryRRset_ok_elim h
    exact ⟨m, hx, heq⟩

/-- A wire oracle that answers every question with the same reply. -/
def replyNet (m : Msg) (rtt : Nat) : Network := fun _ _ _ => .reply m rtt

/-- Witness for C3: a successful NS lookup yields a non-empty set, and a
REFUSED response code yields the server-rejection error. -/
theorem queryRRset_success_spec_witness :
    ([RR.ns "example.org." "ns1.example.org."] : List RR) ≠ [] ∧
    queryRRset (replyNet ⟨5, []⟩ 3) "example.org" typeNS "9.9.9.9" false
      = .error ("failure: " ++ rcodeToString 5) := by
  constructor
  · exact (queryRRset_success_spec
      (replyNet ⟨0, [RR.ns "example.org." "ns1.example.org."]⟩ 7) "example.org" typeNS
      "9.9.9.9" false).1 [RR.ns "example.org." "ns1.example.org."] 7 rfl
  · exact (queryRRset_success_spec (replyNet ⟨5, []⟩ 3) "example.org" typeNS
      "9.9.9.9" false).2.2.1 ⟨5, []⟩ 3 rfl (by decide)

/-! ## C10 — the "no NS found" branch of findNS is dead on success -/

/-- C10: when the NS lookup succeeds its record set is non-empty, every record
contributes exactly one entry, so `findNS` returns that non-empty list and
never reaches its trailing `"no NS found"` error. -/
theorem findNS_no_ns_unreachable (net : Network) (resolver domain : String) (rrset : List RR)
    (rtt : Nat)
    (h : queryRRset net domain typeNS resolver false = .ok (rrset, rtt)) :
    rrset ≠ [] ∧
    findNS net resolver domain = .ok (rrset.map (nsDataFor net resolver)) ∧
    (rrset.map (nsDataFor net resolver)).length = rrset.length ∧
    rrset.map (nsDataFor net resolver) ≠ [] ∧
    findNS net resolver domain ≠ .error "no NS found" := by
  obtain ⟨m, hx, hrc, heq, hne⟩ := queryRRset_ok_elim h
  have hfind := findNS_eq_map h
  refine ⟨hne, hfind, List.length_map _ _, ?_, ?_⟩
  · simp [hne]
  · rw [hfind]
    simp

/-- A wire oracle for a two-nameserver delegation: NS queries yield
`ns1.example.com.` and `ns2.example.com.`; only `ns1`'s A lookup succeeds
(203.0.113.1); every other exchange fails at the transport. -/
def demoNet : Network := fun _ q _ =>
  if q.qtype = typeNS then
    .reply ⟨0, [RR.ns "example.com." "ns1.example.com.",
                RR.ns "example.com." "ns2.example.com."]⟩ 5
  else if q.qtype = typeA ∧ q.qname = "ns1.example.com." then
    .reply ⟨0, [RR.a "ns1.example.com." [203, 0, 113, 1]]⟩ 3
  else .err "i/o timeout"

/-- Witness for C10 over the two-nameserver oracle. -/
theorem findNS_no_ns_unreachable_witness :
    findNS demoNet "9.9.9.9" "example.com." ≠ .error "no NS found" :=
  (findNS_no_ns_unreachable demoNet "9.9.9.9" "example.com."
    [RR.ns "example.com." "ns1.example.com.", RR.ns "example.com." "ns2.example.com."] 5
    rfl).2.2.2.2

/-! ## C4 — per-nameserver resolution failures never abort discovery -/

/-- C4: `findNS` fails exactly on NS-lookup failure: an NS `queryRRset` error
propagates, NS success always produces a result, `getIP` absorbs every
lookup error into an empty address list, and a nameserver whose A and AAAA
lookups both produce nothing still contributes its entry with an empty
address list. -/
theorem findNS_absorbs_lookup_failures (net : Network) (resolver domain : String) :
    (∀ e, queryRRset net domain typeNS resolver false = .error e →
      findNS net resolver domain = .error e) ∧
    (∀ rrset rtt, queryRRset net domain typeNS resolver false = .ok (rrset, rtt) →
      ∃ l, findNS net resolver domain = .ok l) ∧
    (∀ host qtype e, queryRRset net host qtype resolver false = .error e →
      getIP net host qtype resolver = []) ∧
    (∀ rrset rtt rr l, queryRRset net domain typeNS resolver false = .ok (rrset, rtt) →
      findNS net resolver domain = .ok l → rr ∈ rrset →
      getIP net (nsName rr) typeA resolver = [] →
      getIP net (nsName rr) typeAAAA resolver = [] →
      (⟨nsName rr, [], []⟩ : NSData) ∈ l) := by
  refine ⟨?_, ?_, ?_, ?_⟩
  · intro e he
    unfold findNS
    rw [he]
  · intro rrset rtt h
    exact ⟨rrset.map (nsDataFor net resolver), findNS_eq_map h⟩
  · intro host qtype e he
    unfold getIP
    rw [he]
  · intro rrset rtt rr l hq hf hmem hA hAAAA
    have hl : l = rrset.map (nsDataFor net resolver) := by
      have := findNS_eq_map hq
      rw [this] at hf
      exact (Except.ok.inj hf).symm
    subst hl
    have hentry : nsDataFor net resolver rr = ⟨nsName rr, [], []⟩ := by
      simp [nsDataFor, hA, hAAAA]
    exact hentry ▸ List.mem_map_of_mem _ hmem

/-- Witness for C4 over the two-nameserver oracle: `ns2` resolves to nothing
yet its entry, with an empty address list, is in the discovery result. -/
theorem findNS_absorbs_lookup_failures_witness :
    (⟨"ns2.example.com.", [], []⟩ : NSData) ∈
      ([⟨"ns1.example.com.", [[203, 0, 113, 1]],
          [⟨⟨[203, 0, 113, 1], "", 0, ""⟩, "ns1.example.com."⟩]⟩,
        ⟨"ns2.example.com.", [], []⟩] : List NSData) :=
  (findNS_absorbs_lookup_failures demoNet "9.9.9.9" "example.com.").2.2.2
    [RR.ns "example.com." "ns1.example.com.", RR.ns "example.com." "ns2.example.com."] 5
    (RR.ns "example.com." "ns2.example.com.")
    [⟨"ns1.example.com.", [[203, 0, 113, 1]],
        [⟨⟨[203, 0, 113, 1], "", 0, ""⟩, "ns1.example.com."⟩]⟩,
      ⟨"ns2.example.com.", [], []⟩]
    rfl rfl (by decide) rfl rfl

/-! ## C5 — one entry per NS record, in order, A before AAAA -/

/-- C5: a successful discovery has exactly one entry per NS record of the
answer, in answer order, each entry's address list being the A-lookup
addresses followed by the AAAA-lookup addresses; and every record a
`queryRRset` success returns has the requested type, so those two blocks hold
only A-record and only AAAA-record addresses respectively. -/
theorem findNS_preserves_ns_order (net : Network) (resolver domain : String) (rrset : List RR)
    (rtt : Nat) (l : List NSData)
    (hq : queryRRset net domain typeNS resolver false = .ok (rrset, rtt))
    (hf : findNS net resolver domain = .ok l) :
    l.length = rrset.length ∧
    (∀ k (hk : k < l.length) (hk' : k < rrset.length),
      (l.get ⟨k, hk⟩).name = nsName (rrset.get ⟨k, hk'⟩) ∧
      (l.get ⟨k, hk⟩).ip =
        getIP net (nsName (rrset.get ⟨k, hk'⟩)) typeA resolver ++
        getIP net (nsName (rrset.get ⟨k, hk'⟩)) typeAAAA resolver) ∧
    (∀ q' qt server rrset' rtt', queryRRset net q' qt server false = .ok (rrset', rtt') →
      ∀ rr ∈ rrset', rr.rrtype = qt) := by
  have hl : l = rrset.map (nsDataFor net resolver) := by
    have := findNS_eq_map hq
    rw [this] at hf
    exact (Except.ok.inj hf).symm
  subst hl
  refine ⟨List.length_map _ _, ?_, ?_⟩
  · intro k hk hk'
    simp only [List.get_eq_getElem, List.getElem_map]
    exact ⟨rfl, rfl⟩
  · intro q' qt server rrset' rtt' hq' rr hrr
    obtain ⟨m, hx, hrc, heq, hne⟩ := queryRRset_ok_elim hq'
    subst heq
    simp [extractRR, List.mem_filter] at hrr
    exact hrr.2

/-- Witness for C5 over the two-nameserver oracle: two NS records, two
entries. -/
theorem findNS_preserves_ns_order_witness :
    ([⟨"ns1.example.com.", [[203, 0, 113, 1]],
        [⟨⟨[203, 0, 113, 1], "", 0, ""⟩, "ns1.example.com."⟩]⟩,
      ⟨"ns2.example.com.", [], []⟩] : List NSData).length
      = ([RR.ns "example.com." "ns1.example.com.",
          RR.ns "example.com." "ns2.example.com."] : List RR).length :=
  (findNS_preserves_ns_order demoNet "9.9.9.9" "example.com."
    [RR.ns "example.com." "ns1.example.com.", RR.ns "example.com." "ns2.example.com."] 5
    [⟨"ns1.example.com.", [[203, 0, 113, 1]],
        [⟨⟨[203, 0, 113, 1], "", 0, ""⟩, "ns1.example.com."⟩]⟩,
      ⟨"ns2.example.com.", [], []⟩]
    rfl rfl).1

/-! ## Helper lemmas for getParentDomain -/

theorem bsRun_append_no_bs {l : List Char} (rest : List Char) (hbs : '\\' ∉ l) :
    bsRun (l ++ rest) l.length = 0 := by
  unfold bsRun
  rw [List.take_left]
  cases hr : l.reverse with
  | nil => simp
  | cons c t =>
    have hc : c ∈ l := by
      have hm : c ∈ l.reverse := by
        rw [hr]
        exact List.mem_cons_self c t
      simpa [List.mem_reverse] using hm
    have hne : ¬ (c = '\\') := fun h => hbs (h ▸ hc)
    rw [List.takeWhile_cons_of_neg (by simpa using hne)]
    simp

theorem boundaryAt_append_dot {l : List Char} (rest : List Char) (hdot : '.' ∉ l)
    (hbs : '\\' ∉ l) :
    boundaryAt (l ++ '.' :: rest) l.length = true := by
  have h1 : (l ++ '.' :: rest)[l.length]? = some '.' := by
    rw [List.getElem?_append_right (Nat.le_refl _)]
    simp
  have h2 : bsRun (l ++ '.' :: rest) l.length = 0 := bsRun_append_no_bs ('.' :: rest) hbs
  simp [boundaryAt, List.get?_eq_getElem?, h1, h2]

theorem boundaryAt_of_ne_dot {s : List Char} {j : Nat} (h : s[j]? ≠ some '.') :
    boundaryAt s j = false := by
  simp [boundaryAt, List.get?_eq_getElem?, h]

theorem nextLabelGo_step {s : List Char} {i : Nat} (fuel : Nat) (h : i + 1 < s.length)
    (hb : boundaryAt s i = false) :
    nextLabelGo s (fuel + 1) i = nextLabelGo s fuel (i + 1) := by
  simp [nextLabelGo, h, hb]

theorem nextLabelGo_hit {s : List Char} {i : Nat} (fuel : Nat) (h : i + 1 < s.length)
    (hb : boundaryAt s i = true) :
    nextLabelGo s (fuel + 1) i = (i + 1, false) := by
  simp [nextLabelGo, h, hb]

theorem nextLabelGo_end {s : List Char} {i : Nat} (fuel : Nat) (h : ¬ i + 1 < s.length) :
    nextLabelGo s (fuel + 1) i = (i + 1, true) := by
  simp [nextLabelGo, h]

theorem nextLabelGo_skip (s : List Char) (d : Nat) :
    ∀ (f i : Nat), (∀ j, i ≤ j → j < i + d → boundaryAt s j = false) →
      i + d + 1 ≤ s.length →
      nextLabelGo s (f + d) i = nextLabelGo s f (i + d) := by
  induction d with
  | zero => intro f i _ _; rfl
  | succ d ih =>
    intro f i hb hlen
    have h1 : i + 1 < s.length := by omega
    have hb0 : boundaryAt s i = false := hb i (Nat.le_refl i) (by omega)
    have hf : f + (d + 1) = (f + d) + 1 := rfl
    rw [hf, nextLabelGo_step (f + d) h1 hb0]
    have h2 := ih f (i + 1) (fun j hj1 hj2 => hb j (by omega) (by omega)) (by omega)
    rw [h2]
    have h3 : i + 1 + d = i + (d + 1) := by omega
    rw [h3]

theorem getParentDomain_strip (l rest : List Char) (hdot : '.' ∉ l) (hbs : '\\' ∉ l)
    (hrest : rest ≠ []) :
    getParentDomain (String.mk (l ++ '.' :: rest)) = String.mk rest := by
  have hsne : l ++ '.' :: rest ≠ [] := by simp
  have hslen : (l ++ '.' :: rest).length = l.length + rest.length + 1 := by
    simp [List.length_append]
    omega
  have hrl : 0 < rest.length := List.length_pos.mpr hrest
  have hboundary : ∀ j, 0 ≤ j → j < 0 + l.length →
      boundaryAt (l ++ '.' :: rest) j = false := by
    intro j _ hj
    apply boundaryAt_of_ne_dot
    have hj' : j < l.length := by omega
    rw [List.getElem?_append_left hj']
    intro hcontr
    exact hdot (List.getElem?_mem hcontr)
  have hmain : nextLabelGo (l ++ '.' :: rest) (l ++ '.' :: rest).length 0
      = (l.length + 1, false) := by
    have h2 := nextLabelGo_skip (l ++ '.' :: rest) l.length (rest.length + 1) 0 hboundary
      (by rw [hslen]; omega)
    rw [Nat.zero_add] at h2
    rw [nextLabelGo_hit rest.length (by rw [hslen]; omega)
      (boundaryAt_append_dot rest hdot hbs)] at h2
    have hfuel : rest.length + 1 + l.length = (l ++ '.' :: rest).length := by
      rw [hslen]
      omega
    rw [hfuel] at h2
    exact h2
  have hdrop : (l ++ '.' :: rest).drop (l.length + 1) = rest := by
    rw [← List.drop_drop, List.drop_left]
    rfl
  have hmain' : nextLabelGo (l ++ '.' :: rest) (l.length + (rest.length + 1)) 0
      = (l.length + 1, false) := by
    have he : l.length + (rest.length + 1) = (l ++ '.' :: rest).length := by
      rw [hslen]
      omega
    rw [he]
    exact hmain
  unfold getParentDomain nextLabel
  simp [hsne, hmain, hmain', hdrop]

theorem boundaryAt_iff (s : List Char) (j : Nat) :
    boundaryAt s j = true ↔ (s.get? j = some '.' ∧ bsRun s j % 2 = 0) := by
  simp [boundaryAt]

theorem boundaryAt_false_iff (s : List Char) (j : Nat) :
    boundaryAt s j = false ↔ ¬ (s.get? j = some '.' ∧ bsRun s j % 2 = 0) := by
  rw [← boundaryAt_iff]
  exact Bool.eq_false_iff

theorem getParentDomain_boundary (s : List Char) (k : Nat) (hk : k + 1 < s.length)
    (hbefore : ∀ j, j < k → boundaryAt s j = false) (hat : boundaryAt s k = true) :
    getParentDomain (String.mk s) = String.mk (s.drop (k + 1)) := by
  have hsne : s ≠ [] := by
    intro h
    subst h
    simp at hk
  have hmain : nextLabelGo s s.length 0 = (k + 1, false) := by
    have h2 := nextLabelGo_skip s k (s.length - k) 0
      (fun j hj0 hjk => hbefore j (by omega)) (by omega)
    rw [Nat.zero_add] at h2
    have hf : s.length - k = (s.length - k - 1) + 1 := by omega
    rw [hf] at h2
    rw [nextLabelGo_hit (s.length - k - 1) hk hat] at h2
    have hfuel : (s.length - k - 1) + 1 + k = s.length := by omega
    rw [hfuel] at h2
    exact h2
  unfold getParentDomain nextLabel
  simp [hsne, hmain]

theorem getParentDomain_root_general (s : List Char)
    (h : ∀ j, j + 1 < s.length → boundaryAt s j = false) :
    getParentDomain (String.mk s) = "." := by
  by_cases hs : s = []
  · subst hs
    rfl
  · have hlen : 1 ≤ s.length := List.length_pos.mpr hs
    have hboundary : ∀ j, 0 ≤ j → j < 0 + (s.length - 1) → boundaryAt s j = false := by
      intro j _ hj
      exact h j (by omega)
    have hmain : nextLabelGo s s.length 0 = (s.length, true) := by
      have h2 := nextLabelGo_skip s (s.length - 1) 1 0 hboundary (by omega)
      rw [Nat.zero_add] at h2
      rw [nextLabelGo_end (s := s) (i := s.length - 1) 0 (by omega)] at h2
      have hfuel : 1 + (s.length - 1) = s.length := by omega
      rw [hfuel] at h2
      rw [h2]
      have h4 : s.length - 1 + 1 = s.length := by omega
      rw [h4]
    unfold getParentDomain nextLabel
    simp [hs, hmain]

theorem getParentDomain_root (s : List Char) (h : ∀ j, j + 1 < s.length → s[j]? ≠ some '.') :
    getParentDomain (String.mk s) = "." :=
  getParentDomain_root_general s (fun j hj => boundaryAt_of_ne_dot (h j hj))

/-! ## C8 — getParentDomain strips the leftmost label -/

/-- C8: `getParentDomain` strips the leftmost label — everything up to and
including the first unescaped dot (a dot preceded by an even run of
backslashes) that is not the final character — and returns the root label
when every non-final dot is escaped or no dot exists there at all; in
particular `"www.example.com."` yields `"example.com."`, `"."` yields `"."`,
and escaped dots are skipped: `"a\.b.c."` yields `"c."`, `"a\.b"` yields
`"."`, `"a\\.b."` yields `"b."`. -/
theorem getParentDomain_spec :
    (∀ (s : List Char) (k : Nat), k + 1 < s.length →
      (∀ j, j < k → ¬ (s.get? j = some '.' ∧
        ((s.take j).reverse.takeWhile (fun c => c = '\\')).length % 2 = 0)) →
      s.get? k = some '.' →
      ((s.take k).reverse.takeWhile (fun c => c = '\\')).length % 2 = 0 →
      getParentDomain (String.mk s) = String.mk (s.drop (k + 1))) ∧
    (∀ s : List Char,
      (∀ j, j + 1 < s.length → ¬ (s.get? j = some '.' ∧
        ((s.take j).reverse.takeWhile (fun c => c = '\\')).length % 2 = 0)) →
      getParentDomain (String.mk s) = ".") ∧
    (∀ l rest : List Char, '.' ∉ l → '\\' ∉ l → rest ≠ [] →
      getParentDomain (String.mk (l ++ '.' :: rest)) = String.mk rest) ∧
    (∀ s : List Char, (∀ j, j + 1 < s.length → s[j]? ≠ some '.') →
      getParentDomain (String.mk s) = ".") ∧
    getParentDomain "www.example.com." = "example.com." ∧
    getParentDomain "." = "." ∧
    getParentDomain "a\\.b.c." = "c." ∧
    getParentDomain "a\\.b" = "." ∧
    getParentDomain "a\\\\.b." = "b." := by
  refine ⟨?_, ?_, getParentDomain_strip, getParentDomain_root, by decide, by decide,
    by decide, by decide, by decide⟩
  · intro s k hk hbefore hdot hpar
    exact getParentDomain_boundary s k hk
      (fun j hj => (boundaryAt_false_iff s j).mpr (hbefore j hj))
      ((boundaryAt_iff s k).mpr ⟨hdot, hpar⟩)
  · intro s h
    exact getParentDomain_root_general s
      (fun j hj => (boundaryAt_false_iff s j).mpr (h j hj))

/-- Witness for C8: the escape-aware stripping part applied at a concrete
domain whose first dot is escaped, so the second dot is the boundary. -/
theorem getParentDomain_spec_witness :
    getParentDomain (String.mk ['x', '\\', '.', 'y', '.', 'z', '.'])
      = String.mk ['z', '.'] :=
  getParentDomain_spec.1 ['x', '\\', '.', 'y', '.', 'z', '.'] 4 (by decide) (by decide)
    (by decide) (by decide)

/-! ## Helper lemmas for the IP layer -/

theorem length_four_shape {l : List Nat} (h : l.length = 4) :
    ∃ a b c d, l = [a, b, c, d] := by
  match l, h with
  | [a, b, c, d], _ => exact ⟨a, b, c, d, rfl⟩

theorem to4_some_length {ip p : IPAddr} (h : to4 ip = some p) : p.length = 4 := by
  unfold to4 at h
  split_ifs at h with h1 h2
  · cases h
    exact h1
  · cases h
    simp [List.length_drop, h2.1]

theorem to4_none_length {ip : IPAddr} (h : to4 ip = none) : ip.length ≠ 4 := by
  intro hl
  unfold to4 at h
  rw [if_pos hl] at h
  cases h

theorem to4_valid {ip p : IPAddr} (hv : ∀ x ∈ ip, x < 256) (h : to4 ip = some p) :
    ∀ x ∈ p, x < 256 := by
  unfold to4 at h
  split_ifs at h with h1 h2
  · cases h
    exact hv
  · cases h
    intro x hx
    exact hv x (List.drop_subset 12 ip hx)

theorem to4_parseIPv4 (a b c d : Nat) : to4 (parseIPv4 a b c d) = some [a, b, c, d] := by
  have h1 : (v4InV6Prefix ++ [a, b, c, d]).length = 16 := by simp [v4InV6Prefix]
  have h2 : (v4InV6Prefix ++ [a, b, c, d]).take 12 = v4InV6Prefix :=
    List.take_left' (by simp [v4InV6Prefix])
  have h3 : (v4InV6Prefix ++ [a, b, c, d]).drop 12 = [a, b, c, d] :=
    List.drop_left' (by simp [v4InV6Prefix])
  unfold parseIPv4 to4
  rw [if_neg (by simp [h1]), if_pos ⟨h1, h2⟩, h3]

theorem cidrMask24 : cidrMask 24 32 = [255, 255, 255, 0] := by decide

theorem cidrMask8 : cidrMask 8 32 = [255, 0, 0, 0] := by decide

theorem cidrMask16 : cidrMask 16 32 = [255, 255, 0, 0] := by decide

theorem cidrMask12 : cidrMask 12 32 = [255, 240, 0, 0] := by decide

theorem land255_right : ∀ x < 256, x &&& 255 = x := by decide

theorem land255_left : ∀ x < 256, (255 : Nat) &&& x = x := by decide

theorem land0_right : ∀ x < 256, x &&& 0 = 0 := by decide

theorem land0_left : ∀ x < 256, (0 : Nat) &&& x = 0 := by decide

theorem land240_16 : ∀ x < 256, ((16 : Nat) = 240 &&& x ↔ 16 ≤ x ∧ x ≤ 31) := by decide

theorem contains_eval4 {nip ip : IPAddr} {n1 n2 n3 n4 a b c d : Nat} (m1 m2 m3 m4 : Nat)
    (hn : to4 nip = some [n1, n2, n3, n4]) (hip : to4 ip = some [a, b, c, d]) :
    (IPNet.contains ⟨nip, [m1, m2, m3, m4]⟩ ip = true ↔
      (n1 &&& m1 = m1 &&& a ∧ n2 &&& m2 = m2 &&& b ∧ n3 &&& m3 = m3 &&& c ∧
        n4 &&& m4 = m4 &&& d)) := by
  unfold IPNet.contains networkNumberAndMask
  simp [hn, hip, and_assoc]

theorem contains4_isSome {ip' ip : IPAddr} {m1 m2 m3 m4 : Nat} {p' : IPAddr}
    (hp' : to4 ip' = some p')
    (hc : IPNet.contains ⟨ip', [m1, m2, m3, m4]⟩ ip = true) : (to4 ip).isSome = true := by
  cases hip : to4 ip with
  | some p => rfl
  | none =>
    exfalso
    have hl' : p'.length = 4 := to4_some_length hp'
    have hln : ip.length ≠ 4 := to4_none_length hip
    unfold IPNet.contains networkNumberAndMask at hc
    simp [hp', hip, hl', Ne.symm hln] at hc

theorem contains24_self {ip : IPAddr} (h : (to4 ip).isSome = true) :
    IPNet.contains ⟨ip, cidrMask 24 32⟩ ip = true := by
  obtain ⟨p, hp⟩ := Option.isSome_iff_exists.mp h
  obtain ⟨a, b, c, d, rfl⟩ := length_four_shape (to4_some_length hp)
  rw [cidrMask24, contains_eval4 255 255 255 0 hp hp]
  exact ⟨Nat.land_comm a 255, Nat.land_comm b 255, Nat.land_comm c 255, Nat.land_comm d 0⟩

theorem contains24_char {ip' ip : IPAddr} {p' p : IPAddr}
    (hv' : ∀ x ∈ ip', x < 256) (hv : ∀ x ∈ ip, x < 256)
    (hp' : to4 ip' = some p') (hp : to4 ip = some p) :
    (IPNet.contains ⟨ip', cidrMask 24 32⟩ ip = true ↔ p.take 3 = p'.take 3) := by
  obtain ⟨a', b', c', d', rfl⟩ := length_four_shape (to4_some_length hp')
  obtain ⟨a, b, c, d, rfl⟩ := length_four_shape (to4_some_length hp)
  have hvp' := to4_valid hv' hp'
  have hvp := to4_valid hv hp
  have ha' : a' < 256 := hvp' a' (by simp)
  have hb' : b' < 256 := hvp' b' (by simp)
  have hc' : c' < 256 := hvp' c' (by simp)
  have hd' : d' < 256 := hvp' d' (by simp)
  have ha : a < 256 := hvp a (by simp)
  have hb : b < 256 := hvp b (by simp)
  have hc : c < 256 := hvp c (by simp)
  have hd : d < 256 := hvp d (by simp)
  rw [cidrMask24, contains_eval4 255 255 255 0 hp' hp]
  rw [land255_right a' ha', land255_left a ha, land255_right b' hb', land255_left b hb,
    land255_right c' hc', land255_left c hc, land0_right d' hd', land0_left d hd]
  simp
  omega

theorem countP_eq_iff_of_imp {α : Type} {p q : α → Bool} :
    ∀ l : List α, (∀ x ∈ l, p x = true → q x = true) →
      (l.countP p = l.countP q ↔ ∀ x ∈ l, q x = true → p x = true) := by
  intro l
  induction l with
  | nil => intro _; simp
  | cons a t ih =>
    intro himp
    have himpt : ∀ x ∈ t, p x = true → q x = true :=
      fun x hx => himp x (List.mem_cons_of_mem a hx)
    have hmono := List.countP_mono_left (l := t) himpt
    rw [List.countP_cons, List.countP_cons]
    by_cases hq : q a = true
    · by_cases hp : p a = true
      · simp only [hp, hq, if_pos]
        constructor
        · intro h x hx hqx
          rcases List.mem_cons.mp hx with rfl | hx'
          · exact hp
          · exact ((ih himpt).mp (by omega)) x hx' hqx
        · intro h
          have := (ih himpt).mpr (fun x hx hqx => h x (List.mem_cons_of_mem a hx) hqx)
          omega
      · have hp' : p a = false := by
          cases hpb : p a
          · rfl
          · exact absurd hpb hp
        simp only [hp', hq, if_pos, if_neg]
        constructor
        · intro h
          exact absurd h (by simp; omega)
        · intro hall
          exact absurd (hall a (List.mem_cons_self a t) hq) (by simp [hp'])
    · have hq' : q a = false := by
        cases hqb : q a
        · rfl
        · exact absurd hqb hq
      have hp' : p a = false := by
        cases hpb : p a
        · exact rfl
        · exact absurd (himp a (List.mem_cons_self a t) hpb) hq
      rw [hp', hq']
      have hre : (if (false = true) then 1 else 0) = 0 := by simp
      rw [hre, Nat.add_zero, Nat.add_zero, ih himpt]
      constructor
      · intro h x hx hqx
        rcases List.mem_cons.mp hx with rfl | hx'
        · exact absurd hqx (by simp [hq'])
        · exact h x hx' hqx
      · intro h x hx hqx
        exact h x (List.mem_cons_of_mem a hx) hqx

theorem sum_le_mul {c : Nat} : ∀ L : List Nat, (∀ x ∈ L, x ≤ c) → L.sum ≤ c * L.length := by
  intro L
  induction L with
  | nil => intro _; simp
  | cons a t ih =>
    intro h
    have h1 := h a (List.mem_cons_self a t)
    have h2 := ih (fun x hx => h x (List.mem_cons_of_mem a hx))
    simp only [List.sum_cons, List.length_cons, Nat.mul_succ]
    omega

theorem sum_eq_mul_iff {c : Nat} : ∀ L : List Nat, (∀ x ∈ L, x ≤ c) →
    (L.sum = c * L.length ↔ ∀ x ∈ L, x = c) := by
  intro L
  induction L with
  | nil => intro _; simp
  | cons a t ih =>
    intro h
    have h1 := h a (List.mem_cons_self a t)
    have h2 := sum_le_mul t (fun x hx => h x (List.mem_cons_of_mem a hx))
    have h3 := ih (fun x hx => h x (List.mem_cons_of_mem a hx))
    simp only [List.sum_cons, List.length_cons, Nat.mul_succ, List.mem_cons]
    constructor
    · intro he
      have ha : a = c := by omega
      have ht : t.sum = c * t.length := by omega
      intro x hx
      rcases hx with rfl | hx'
      · exact ha
      · exact (h3.mp ht) x hx'
    · intro hall
      have ha : a = c := hall a (Or.inl rfl)
      have ht : t.sum = c * t.length := h3.mpr (fun x hx => hall x (Or.inr hx))
      omega

theorem isSameSubnet_iff_pairs (ips : List IPAddr) :
    (isSameSubnet ips = true ↔
      ∀ ip₁ ∈ ips, (to4 ip₁).isSome = true →
        ∀ ip₂ ∈ ips, (to4 ip₂).isSome = true →
          IPNet.contains ⟨ip₁, cidrMask 24 32⟩ ip₂ = true) := by
  simp only [isSameSubnet, beq_iff_eq]
  have hmemnet : ∀ n ∈ (ips.filter (fun ip => (to4 ip).isSome)).map
      (fun ip => IPNet.mk ip (cidrMask 24 32)),
      ∃ ip₁, ip₁ ∈ ips ∧ (to4 ip₁).isSome = true ∧ n = ⟨ip₁, cidrMask 24 32⟩ := by
    intro n hn
    obtain ⟨ip₁, hip₁, rfl⟩ := List.mem_map.mp hn
    have hm := List.mem_filter.mp hip₁
    exact ⟨ip₁, hm.1, hm.2, rfl⟩
  have himp : ∀ n ∈ (ips.filter (fun ip => (to4 ip).isSome)).map
      (fun ip => IPNet.mk ip (cidrMask 24 32)),
      ∀ x ∈ ips, IPNet.contains n x = true → (to4 x).isSome = true := by
    intro n hn x hx hc
    obtain ⟨ip₁, _, h1, heq⟩ := hmemnet n hn
    obtain ⟨p', hp'⟩ := Option.isSome_iff_exists.mp h1
    rw [heq, cidrMask24] at hc
    exact contains4_isSome hp' hc
  have hc_eq : (ips.filter (fun ip => (to4 ip).isSome)).length
      = ips.countP (fun ip => (to4 ip).isSome) := by
    rw [List.countP_eq_length_filter]
  have hbound : ∀ x ∈ ((ips.filter (fun ip => (to4 ip).isSome)).map
      (fun ip => IPNet.mk ip (cidrMask 24 32))).map
      (fun n => ips.countP (fun ip => IPNet.contains n ip)),
      x ≤ (ips.filter (fun ip => (to4 ip).isSome)).length := by
    intro x hx
    obtain ⟨n, hn, rfl⟩ := List.mem_map.mp hx
    rw [hc_eq]
    exact List.countP_mono_left (himp n hn)
  rw [show (ips.filter (fun ip => (to4 ip).isSome)).length
        * ((ips.filter (fun ip => (to4 ip).isSome)).map
            (fun ip => IPNet.mk ip (cidrMask 24 32))).length
      = (ips.filter (fun ip => (to4 ip).isSome)).length
        * (((ips.filter (fun ip => (to4 ip).isSome)).map
            (fun ip => IPNet.mk ip (cidrMask 24 32))).map
            (fun n => ips.countP (fun ip => IPNet.contains n ip))).length from by
    simp]
  rw [sum_eq_mul_iff _ hbound]
  constructor
  · intro hall ip₁ h1mem h1some ip₂ h2mem h2some
    have hn : (⟨ip₁, cidrMask 24 32⟩ : IPNet) ∈
        (ips.filter (fun ip => (to4 ip).isSome)).map
          (fun ip => IPNet.mk ip (cidrMask 24 32)) :=
      List.mem_map_of_mem _ (List.mem_filter.mpr ⟨h1mem, h1some⟩)
    have hx := hall _ (List.mem_map_of_mem _ hn)
    rw [hc_eq] at hx
    exact (countP_eq_iff_of_imp ips (himp _ hn)).mp hx ip₂ h2mem h2some
  · intro hpairs x hx
    obtain ⟨n, hn, rfl⟩ := List.mem_map.mp hx
    rw [hc_eq]
    apply (countP_eq_iff_of_imp ips (himp _ hn)).mpr
    intro ip₂ h2mem h2some
    obtain ⟨ip₁, h1mem, h1some, heq⟩ := hmemnet n hn
    rw [heq]
    exact hpairs ip₁ h1mem h1some ip₂ h2mem h2some

theorem isSameSubnet_single (ip : IPAddr) : isSameSubnet [ip] = true := by
  rw [isSameSubnet_iff_pairs]
  intro ip₁ h1 h1s ip₂ h2 h2s
  have e1 : ip₁ = ip := by simpa using h1
  have e2 : ip₂ = ip := by simpa using h2
  subst e1
  subst e2
  exact contains24_self h1s

theorem isRFC1918_char (a b c d : Nat) (ha : a < 256) (hb : b < 256) (hc : c < 256)
    (hd : d < 256) :
    (isRFC1918 [a, b, c, d] = true ↔
      a = 10 ∨ (a = 172 ∧ 16 ≤ b ∧ b ≤ 31) ∨ (a = 192 ∧ b = 168)) := by
  have hip : to4 [a, b, c, d] = some [a, b, c, d] := rfl
  simp only [isRFC1918, Bool.or_eq_true]
  rw [cidrMask8, cidrMask16, cidrMask12]
  rw [contains_eval4 255 0 0 0 (to4_parseIPv4 10 0 0 0) hip,
    contains_eval4 255 255 0 0 (to4_parseIPv4 192 168 0 0) hip,
    contains_eval4 255 240 0 0 (to4_parseIPv4 172 16 0 0) hip]
  rw [land255_left a ha, land255_left b hb, land0_left b hb, land0_left c hc,
    land0_left d hd]
  have e10 : (10 : Nat) &&& 255 = 10 := by decide
  have e192 : (192 : Nat) &&& 255 = 192 := by decide
  have e168 : (168 : Nat) &&& 255 = 168 := by decide
  have e172 : (172 : Nat) &&& 255 = 172 := by decide
  have e16 : (16 : Nat) &&& 240 = 16 := by decide
  have e00 : (0 : Nat) &&& 0 = 0 := by decide
  rw [e10, e192, e168, e172, e16, e00]
  rw [land240_16 b hb]
  omega

/-! ## C7 — isRFC1918 is exactly RFC 1918 membership -/

/-- C7: for every IPv4 address, `isRFC1918` holds exactly on 10.0.0.0/8,
172.16.0.0/12 and 192.168.0.0/16; in particular it accepts 10.1.2.3,
172.16.0.5 and 192.168.1.1 and rejects 8.8.8.8. -/
theorem isRFC1918_spec :
    (∀ a b c d : Nat, a < 256 → b < 256 → c < 256 → d < 256 →
      (isRFC1918 [a, b, c, d] = true ↔
        a = 10 ∨ (a = 172 ∧ 16 ≤ b ∧ b ≤ 31) ∨ (a = 192 ∧ b = 168))) ∧
    isRFC1918 (parseIPv4 10 1 2 3) = true ∧
    isRFC1918 (parseIPv4 172 16 0 5) = true ∧
    isRFC1918 (parseIPv4 192 168 1 1) = true ∧
    isRFC1918 (parseIPv4 8 8 8 8) = false :=
  ⟨fun a b c d ha hb hc hd => isRFC1918_char a b c d ha hb hc hd,
    by decide, by decide, by decide, by decide⟩

/-- Witness for C7: the range characterisation applied at 192.168.1.77. -/
theorem isRFC1918_spec_witness : isRFC1918 [192, 168, 1, 77] = true :=
  (isRFC1918_spec.1 192 168 1 77 (by decide) (by decide) (by decide) (by decide)).mpr
    (Or.inr (Or.inr ⟨rfl, rfl⟩))

/-! ## C1 — isSameSubnet collapses all IPv4 addresses into one /24 -/

/-- C1: `isSameSubnet` is true exactly when every IPv4 address of the list
lies in the /24 network derived from every IPv4 address of the list
(non-IPv4 addresses being ignored); membership in such a derived /24 is
first-three-byte agreement; and the concrete cases of the spec hold: true on
the empty and singleton lists and on three 10.0.0.x addresses, false on
{10.0.0.1, 10.0.1.1}. -/
theorem isSameSubnet_spec :
    (∀ ips : List IPAddr,
      (isSameSubnet ips = true ↔
        ∀ ip₁ ∈ ips, (to4 ip₁).isSome = true →
          ∀ ip₂ ∈ ips, (to4 ip₂).isSome = true →
            IPNet.contains ⟨ip₁, cidrMask 24 32⟩ ip₂ = true)) ∧
    (∀ ip₁ ip₂ p₁ p₂ : IPAddr, (∀ x ∈ ip₁, x < 256) → (∀ x ∈ ip₂, x < 256) →
      to4 ip₁ = some p₁ → to4 ip₂ = some p₂ →
      (IPNet.contains ⟨ip₁, cidrMask 24 32⟩ ip₂ = true ↔ p₂.take 3 = p₁.take 3)) ∧
    isSameSubnet [] = true ∧
    (∀ ip, isSameSubnet [ip] = true) ∧
    isSameSubnet [parseIPv4 10 0 0 1, parseIPv4 10 0 1 1] = false ∧
    isSameSubnet [parseIPv4 10 0 0 1, parseIPv4 10 0 0 2, parseIPv4 10 0 0 3] = true :=
  ⟨isSameSubnet_iff_pairs,
    fun ip₁ ip₂ p₁ p₂ hv₁ hv₂ hp₁ hp₂ => contains24_char hv₁ hv₂ hp₁ hp₂,
    by decide, isSameSubnet_single, by decide, by decide⟩

/-- Witness for C1: the all-pairs characterisation applied to two addresses
of one /24. -/
theorem isSameSubnet_spec_witness :
    isSameSubnet [parseIPv4 192 0 2 10, parseIPv4 192 0 2 77] = true :=
  (isSameSubnet_spec.1 [parseIPv4 192 0 2 10, parseIPv4 192 0 2 77]).mpr (by decide)

end DT
